import Mathlib

/-!
Verification of the HeerlenDoen interactive-map widget modules.

Shallow embedding of the TypeScript/JavaScript modules:
  * `filters.ts` — filter-expression construction and category toggling;
  * `localStorage` module — persistence of the active-filter set;
  * the data loader (`getGeoData` / `getARData`);
  * `stateManager.ts` — central setter, subscriber notification, derived events;
  * `eventBus.ts` — publish/subscribe with one-shot subscriptions;
  * the `GeolocationManager` `_onSuccess` override with the haversine
    boundary check.

JavaScript `Set<string>` objects are insertion-ordered and duplicate-free;
they are modelled as `List String` built only through the operations below
(`jsSetAdd`, `jsSetDelete`, `jsSetOfList`), which preserve `Nodup`.
-/

namespace HeerlenDoen

/-- JS `Set.has`: membership test. -/
def jsSetHas (l : List String) (c : String) : Bool :=
  l.contains c

/-- JS `Set.add`: appends the element at the end iff it is not yet present. -/
def jsSetAdd (l : List String) (c : String) : List String :=
  if l.contains c then l else l ++ [c]

/-- JS `Set.delete`: removes the (single) occurrence of the element. -/
def jsSetDelete (l : List String) (c : String) : List String :=
  l.erase c

/-- JS `new Set(iterable)` over a list of strings: inserts the elements in
order, keeping the first occurrence of each duplicate. -/
def jsSetOfList (l : List String) : List String :=
  l.foldl jsSetAdd []

/-! ## Filter engine (`src/modules/filters.ts`)

The fragment of the Mapbox GL expression language that `applyMapFilters`
builds (lines 25–38 of `filters.ts`).  Evaluation follows the documented
mapbox-gl semantics of these operators (the map engine is an external
collaborator): `get` of a missing property is `null`, `in` with a `null`
needle is `false` (not found), `has` is a boolean test, `any` is boolean
disjunction, `==` is typed equality. -/

/-- Mapbox expression AST fragment used by `applyMapFilters`. -/
inductive MbExpr : Type where
  | getProp (name : String)
  | litList (vals : List String)
  | strLit (s : String)
  | hasProp (name : String)
  | notE (e : MbExpr)
  | inE (needle haystack : MbExpr)
  | eqE (a b : MbExpr)
  | anyE (args : List MbExpr)

/-- Mapbox expression values for the fragment above. -/
inductive MbVal : Type where
  | nullV
  | boolV (b : Bool)
  | strV (s : String)
  | listV (l : List String)
  deriving Repr, DecidableEq

/-- A rendered map feature as seen by the filter: only its `category`
property is consulted by the expression built in `applyMapFilters`.
`none` models a feature with no `category` attribute at all. -/
structure MbFeature : Type where
  category : Option String
  deriving Repr, DecidableEq

/-- Truthiness of an evaluated filter expression: a feature passes the
filter iff it evaluates to boolean `true`. -/
def isTrueVal : MbVal → Bool
  | .boolV true => true
  | _ => false

mutual

/-- Evaluate a Mapbox filter expression against a feature. -/
def evalMb (f : MbFeature) : MbExpr → MbVal
  | .getProp n =>
      if n = "category" then
        match f.category with
        | some s => .strV s
        | none => .nullV
      else .nullV
  | .litList vals => .listV vals
  | .strLit s => .strV s
  | .hasProp n => .boolV (n = "category" && f.category.isSome)
  | .notE e =>
      match evalMb f e with
      | .boolV b => .boolV (!b)
      | _ => .boolV false
  | .inE needle haystack =>
      match evalMb f needle, evalMb f haystack with
      | .strV s, .listV l => .boolV (l.contains s)
      | _, _ => .boolV false
  | .eqE a b =>
      match evalMb f a, evalMb f b with
      | .strV s, .strV t => .boolV (s = t)
      | .boolV x, .boolV y => .boolV (x = y)
      | .nullV, .nullV => .boolV true
      | _, _ => .boolV false
  | .anyE args => .boolV (evalAnyMb f args)

/-- Evaluate the argument list of an `any` expression (boolean OR). -/
def evalAnyMb (f : MbFeature) : List MbExpr → Bool
  | [] => false
  | e :: es => isTrueVal (evalMb f e) || evalAnyMb f es

end

/-- The filter expression `applyMapFilters` rebuilds from the active-filter
set (`filters.ts` lines 25–38): `null` (show everything) when the set is
empty, otherwise
`["any", ["in", ["get","category"], ["literal", fs]],
         ["!", ["has","category"]],
         ["==", ["get","category"], ""]]`. -/
def applyMapFiltersExpression (currentFilters : List String) : Option MbExpr :=
  if currentFilters.length = 0 then
    none
  else
    some (.anyE [.inE (.getProp "category") (.litList currentFilters),
                 .notE (.hasProp "category"),
                 .eqE (.getProp "category") (.strLit "")])

/-- Semantics of `map.setFilter`: a `null` filter passes every feature, an
expression filter passes a feature iff it evaluates to `true`. -/
def passesFilter (fe : Option MbExpr) (f : MbFeature) : Bool :=
  match fe with
  | none => true
  | some e => isTrueVal (evalMb f e)

/-- The effect of `toggleFilter` (`filters.ts` lines 59–77) on the active-filter set: a
falsy (empty) category is rejected up front; otherwise membership of the
category is flipped on a copy and the result is stored through
`StateManager.setActiveFilters`, which copies it again via `new Set`. -/
def toggleFilterSet (s : List String) (category : String) : List String :=
  if category = "" then s
  else
    jsSetOfList (if jsSetHas s category then jsSetDelete s category
                 else jsSetAdd s category)

/-! ## Local-storage adapter (`localStorage` module)

`saveMapFiltersToLocalStorage` stores `JSON.stringify(Array.from(set))`
under the filter key; `loadFiltersAndUpdateMap` reads the key, parses it,
and rebuilds the set with `new Set(parsed)` inside a `try`/`catch` whose
handler falls back to `updateMapState([])`.

`localStorage` and `JSON` are platform collaborators; the stored slot is
modelled by what `localStorage.getItem` + `JSON.parse` yield on it:
`none` for an absent key, `some (.error ())` for a stored string that
`JSON.parse` rejects (a thrown `SyntaxError`), and `some (.ok j)` for a
stored string parsing to the JSON value `j` (`JSON.parse ∘ JSON.stringify`
is the identity on JSON values). -/

/-- A JSON value, the result of a successful `JSON.parse`. -/
inductive Json : Type where
  | null
  | bool (b : Bool)
  | num (q : ℚ)
  | str (s : String)
  | arr (elems : List Json)
  | obj (fields : List (String × Json))

/-- JS `SameValueZero` equality on parsed JSON values, as used by `Set` for
duplicate detection.  Primitives compare by value; arrays and objects
compare by reference, and since `JSON.parse` allocates a fresh object for
every array/object node, two such values arising from one parse are never
identical — so they compare unequal here. -/
def jsPrimEq : Json → Json → Bool
  | .null, .null => true
  | .bool a, .bool b => a = b
  | .num a, .num b => a = b
  | .str a, .str b => a = b
  | _, _ => false

/-- JS `Set.add` over parsed JSON values (`SameValueZero` duplicate test). -/
def jsSetAddJ (l : List Json) (x : Json) : List Json :=
  if l.any (fun y => jsPrimEq y x) then l else l ++ [x]

/-- JS `new Set(iterable)` over a list of parsed JSON values. -/
def jsSetOfListJ (l : List Json) : List Json :=
  l.foldl jsSetAddJ []

/-- JS `new Set(x)` for an arbitrary value `x` produced by `JSON.parse`:
arrays iterate their elements, strings iterate their characters (each
yielding a one-character string), `null` counts as no argument (empty
set), and every other value is not iterable, so the constructor throws a
`TypeError` (`none`). -/
def newSetFromJson : Json → Option (List Json)
  | .arr l => some (jsSetOfListJ l)
  | .str s => some (jsSetOfListJ (s.data.map fun ch => Json.str ch.toString))
  | .null => some []
  | .bool _ => none
  | .num _ => none
  | .obj _ => none

/-- Embedding of `saveMapFiltersToLocalStorage` (`part_000` lines 14–21): stores
`JSON.stringify(Array.from(state.activeFilters))` under the filter key.
The slot afterwards parses back to exactly the written JSON array. -/
def saveMapFiltersToLocalStorage (activeFilters : List String) :
    Option (Except Unit Json) :=
  some (.ok (.arr (activeFilters.map Json.str)))

/-- Embedding of `loadFiltersAndUpdateMap` (`part_000` lines 43–51) composed with
`updateMapState` and `StateManager.setActiveFilters`: an absent key yields
`[]`; a parse failure is caught and yields `updateMapState([])`; a parsed
value goes through `new Set(parsed)` (a thrown `TypeError` is caught the
same way) and is then copied once more by `setActiveFilters`'s `new Set`.
The result is the active-filter set after the load. -/
def loadFiltersAndUpdateMap (slot : Option (Except Unit Json)) : List Json :=
  match slot with
  | none => []
  | some (.error _) => []
  | some (.ok j) =>
      match newSetFromJson j with
      | some s => jsSetOfListJ s
      | none => []

/-- The documented well-formed content of the filter storage key
(spec §6): a JSON array of category strings. -/
def isFilterStringArray : Json → Bool
  | .arr l => l.all fun j => match j with | .str _ => true | _ => false
  | _ => false

/-! ## Data loader (`part_002`, `getGeoData` / `getARData`)

Each DOM child element is modelled by the values the loader extracts from
it.  `parseFloat(getRobustValue(...))` yields a JS number: `NaN` when the
raw field is missing (`getRobustValue` returns the `null` default) or not
numeric, otherwise a (possibly infinite) numeric value; the loader's
validity check is exactly `isNaN(lat) || isNaN(long)`. -/

/-- Result of `parseFloat` on a raw coordinate field. -/
inductive JsNum : Type where
  | nan
  | posInf
  | negInf
  | finite (q : ℚ)
  deriving Repr, DecidableEq

/-- The `isNaN` test on a `parseFloat` result. -/
def JsNum.isNaNb : JsNum → Bool
  | .nan => true
  | _ => false

/-- A standard location record as read from one child of `#location-list`:
the parsed coordinates and the (possibly defaulted) `locationID` string.
Display-only attributes are irrelevant to loading and omitted. -/
structure GeoRecord : Type where
  latParse : JsNum
  longParse : JsNum
  locationID : String
  deriving Repr, DecidableEq

/-- An AR record as read from one child of `#location-ar-list`: parsed
coordinates, the (possibly defaulted) name, and the two AR link fields
(`none` models the `null` default of a missing field). -/
structure ARRecord : Type where
  latParse : JsNum
  longParse : JsNum
  name : String
  linkMobile : Option String
  linkDesktop : Option String
  deriving Repr, DecidableEq

/-- JS falsiness of a link value: `null` and the empty string are falsy. -/
def jsFalsyLink : Option String → Bool
  | none => true
  | some s => s = ""

/-- A feature pushed onto `state.mapLocations.features`.  A `geo` feature
carries its `properties.id`; an AR feature has no `id` property at all
(its properties are `type:'ar'`, `name`, links, …), so the duplicate test
`feat.properties.id === locationID` is false against it. -/
inductive LoadedFeature : Type where
  | geo (id : String) (coords : JsNum × JsNum)
  | ar (name : String) (coords : JsNum × JsNum)
  deriving Repr, DecidableEq

/-- The test `feat.properties.id === s` for a feature in the collection. -/
def featHasId (f : LoadedFeature) (s : String) : Bool :=
  match f with
  | .geo i _ => i = s
  | .ar _ _ => false

/-- The `properties.id` of a feature, when it has one. -/
def featGeoId : LoadedFeature → Option String
  | .geo i _ => some i
  | .ar _ _ => none

/-- Coordinate validity check of both loaders:
`!(isNaN(lat) || isNaN(long))`. -/
def coordsValid (lat long : JsNum) : Bool :=
  !(lat.isNaNb || long.isNaNb)

/-- Validity of a standard location record. -/
def geoValid (r : GeoRecord) : Bool :=
  coordsValid r.latParse r.longParse

/-- The feature `getGeoData` builds from a (coordinate-valid) record:
geometry `[long, lat]` and `properties.id = locationID`. -/
def mkGeoFeature (r : GeoRecord) : LoadedFeature :=
  .geo r.locationID (r.longParse, r.latParse)

/-- One iteration of the `getGeoData` per-element loop (`part_002`
lines 1121–1255) over the accumulator
(features so far, loadedCount, skippedCount): invalid coordinates skip
the record and bump `skippedCount`; a duplicate `locationID` among the
features already collected skips it likewise; otherwise the feature is
appended and `loadedCount` bumped. -/
def getGeoStep (acc : List LoadedFeature × ℕ × ℕ) (r : GeoRecord) :
    List LoadedFeature × ℕ × ℕ :=
  let (fs, loaded, skipped) := acc
  if geoValid r then
    if fs.any (fun f => featHasId f r.locationID) then
      (fs, loaded, skipped + 1)
    else
      (fs ++ [mkGeoFeature r], loaded + 1, skipped)
  else
    (fs, loaded, skipped + 1)

/-- Embedding of `getGeoData` (`part_002` lines 1105–1260): folds the record list into
`state.mapLocations.features` (initially `init`), returning the new
feature list and the `loadedCount` / `skippedCount` totals. -/
def getGeoData (init : List LoadedFeature) (records : List GeoRecord) :
    List LoadedFeature × ℕ × ℕ :=
  records.foldl getGeoStep (init, 0, 0)

/-- Coordinate validity of an AR record. -/
def arCoordsValid (r : ARRecord) : Bool :=
  coordsValid r.latParse r.longParse

/-- The AR-links requirement (`part_002` lines 1379–1385): the record is
skipped when both `link_ar_mobile` and `link_ar_desktop` are falsy. -/
def arLinksPresent (r : ARRecord) : Bool :=
  !(jsFalsyLink r.linkMobile && jsFalsyLink r.linkDesktop)

/-- The feature `getARData` builds from a valid AR record. -/
def mkARFeature (r : ARRecord) : LoadedFeature :=
  .ar r.name (r.longParse, r.latParse)

/-- One iteration of the `getARData` per-element loop (`part_002`
lines 1283–1414): invalid coordinates or missing links skip the record
and bump `skippedCount`; otherwise the AR feature is pushed
unconditionally (no duplicate check). -/
def getARStep (acc : List LoadedFeature × ℕ × ℕ) (r : ARRecord) :
    List LoadedFeature × ℕ × ℕ :=
  let (fs, loaded, skipped) := acc
  if arCoordsValid r then
    if arLinksPresent r then
      (fs ++ [mkARFeature r], loaded + 1, skipped)
    else
      (fs, loaded, skipped + 1)
  else
    (fs, loaded, skipped + 1)

/-- Embedding of `getARData` (`part_002` lines 1266–1419). -/
def getARData (init : List LoadedFeature) (records : List ARRecord) :
    List LoadedFeature × ℕ × ℕ :=
  records.foldl getARStep (init, 0, 0)

/-- Embedding of `loadLocationData` (`part_002` lines 1424–1438): one load pass resets
`state.mapLocations.features` to `[]`, then runs `getGeoData` followed by
`getARData`.  Returns the produced feature collection. -/
def loadLocationData (geoRecords : List GeoRecord) (arRecords : List ARRecord) :
    List LoadedFeature :=
  (getARData (getGeoData [] geoRecords).1 arRecords).1

/-! ## State manager (`src/modules/stateManager.ts`)

Object handles held by the state (the map, popup objects, the
`activeFilters` `Set` object) are compared by JS reference identity in
`emitStateChangeEvents`; handles and references are modelled by natural
numbers.  A subscriber is its callback's identity together with whether
the callback throws; `setState`'s `forEach` wraps every call in
`try`/`catch`, so a throwing subscriber never blocks the others. -/

/-- The fields of `AppState` that `emitStateChangeEvents` consults.
`filtersRef` is the reference identity of the `activeFilters` `Set`
object (`!==` comparison); `activeFilters` is its contents. -/
structure MAppState : Type where
  mapLoaded : Bool
  activePopup : Option ℕ
  markersAdded : Bool
  modelsAdded : Bool
  filtersRef : ℕ
  activeFilters : List String
  deriving Repr, DecidableEq

/-- A partial update passed to `setState` (`Object.assign` semantics:
present fields overwrite, absent fields are untouched). -/
structure StateUpdates : Type where
  mapLoaded : Option Bool := none
  activePopup : Option (Option ℕ) := none
  markersAdded : Option Bool := none
  modelsAdded : Option Bool := none
  filters : Option (ℕ × List String) := none

/-- The update `Object.assign(this.state, updates)`. -/
def applyUpdates (st : MAppState) (u : StateUpdates) : MAppState :=
  { mapLoaded := u.mapLoaded.getD st.mapLoaded
    activePopup := u.activePopup.getD st.activePopup
    markersAdded := u.markersAdded.getD st.markersAdded
    modelsAdded := u.modelsAdded.getD st.modelsAdded
    filtersRef := (u.filters.map Prod.fst).getD st.filtersRef
    activeFilters := (u.filters.map Prod.snd).getD st.activeFilters }

/-- Semantic events emitted through the event bus by
`emitStateChangeEvents`. -/
inductive SMEvent : Type where
  | mapLoadedEv
  | popupOpened (handle : ℕ)
  | popupClosed (handle : ℕ)
  | filterChanged (filters : List String)
  deriving Repr, DecidableEq

/-- Embedding of `StateManager.emitStateChangeEvents` (`stateManager.ts` lines 98–117):
the list of events emitted, in emission order.  The popup comparison is
reference identity (`!==`); a non-`null` popup handle is truthy. -/
def emitStateChangeEvents (previous current : MAppState) : List SMEvent :=
  (if !previous.mapLoaded && current.mapLoaded then [.mapLoadedEv] else []) ++
  (if previous.activePopup ≠ current.activePopup then
    match current.activePopup with
    | some p => [.popupOpened p]
    | none =>
        match previous.activePopup with
        | some q => [.popupClosed q]
        | none => []
   else []) ++
  (if previous.filtersRef ≠ current.filtersRef then
    [.filterChanged current.activeFilters]
   else [])

/-- A registered subscriber: callback identity plus whether the callback
throws when invoked. -/
structure Subscriber : Type where
  sid : ℕ
  throws : Bool
  deriving Repr, DecidableEq

/-- Observable actions of one `setState` call, in execution order. -/
inductive TraceAct : Type where
  | notify (sid : ℕ)
  | emitEv (e : SMEvent)
  deriving Repr, DecidableEq

/-- The subscriber-notification loop of `setState` (`stateManager.ts`
lines 83–89): `forEach` over the subscriber set in registration order;
the per-subscriber `try`/`catch` means every subscriber is called whether
or not earlier ones threw. -/
def notifySubscribers (subs : List Subscriber) : List TraceAct :=
  subs.foldl (fun acc s => acc ++ [.notify s.sid]) []

/-- Embedding of `StateManager.setState` (`stateManager.ts` lines 76–93): snapshot the
previous state, apply the updates, notify all subscribers, then emit the
derived events; the returned trace lists every action executed before
control returns to the caller, in order. -/
def setState (subs : List Subscriber) (st : MAppState) (u : StateUpdates) :
    MAppState × List TraceAct :=
  let previousState := st
  let current := applyUpdates st u
  (current,
   notifySubscribers subs ++
     (emitStateChangeEvents previousState current).map .emitEv)

/-- Embedding of `StateManager.setActivePopup` (`stateManager.ts` lines 128–130):
`setState({ activePopup: popup })`. -/
def setActivePopup (subs : List Subscriber) (st : MAppState)
    (popup : Option ℕ) : MAppState × List TraceAct :=
  setState subs st { activePopup := some popup }

/-! ## Event bus (`src/modules/eventBus.ts`)

Listeners for one event name form a JS `Set` (insertion-ordered,
identity-deduplicated).  `once` registers a fresh wrapper closure that
calls the underlying handler and then unsubscribes itself — but the
unsubscription runs only if the handler returned normally, because a
thrown exception leaves the wrapper before `this.off(...)` and is caught
by `emit`'s per-handler `try`/`catch`. -/

/-- An underlying handler: its identity, and whether it throws. -/
structure BusHandler : Type where
  hid : ℕ
  throws : Bool
  deriving Repr, DecidableEq

/-- A registered listener: either the handler itself (`on`) or the
self-removing wrapper created by `once`. -/
inductive BusEntry : Type where
  | plain (h : BusHandler)
  | onceWrapped (h : BusHandler)
  deriving Repr, DecidableEq

/-- The underlying handler identity of a listener. -/
def BusEntry.hid : BusEntry → ℕ
  | .plain h => h.hid
  | .onceWrapped h => h.hid

/-- Embedding of `EventBus.emit` (`eventBus.ts` lines 59–70) for one event name:
iterates the listener set in order, invoking each handler inside
`try`/`catch`.  Returns the listener set after the emission together with
the invocation log (underlying handler identities, in call order).
A `once` wrapper removes itself only when its handler returns normally. -/
def runEmit : List BusEntry → List BusEntry × List ℕ
  | [] => ([], [])
  | e :: rest =>
      let (restAfter, log) := runEmit rest
      match e with
      | .plain h => (.plain h :: restAfter, h.hid :: log)
      | .onceWrapped h =>
          if h.throws then (.onceWrapped h :: restAfter, h.hid :: log)
          else (restAfter, h.hid :: log)

/-- Runs `n` successive emissions of the event, concatenating the invocation
logs. -/
def emitN : ℕ → List BusEntry → List BusEntry × List ℕ
  | 0, ls => (ls, [])
  | n + 1, ls =>
      let (ls', log) := runEmit ls
      let (ls'', logs) := emitN n ls'
      (ls'', log ++ logs)

/-- Embedding of `EventBus.once` (`eventBus.ts` lines 40–47): registers the fresh
self-removing wrapper for the handler (the wrapper is a new closure, so
the `Set` always adds it). -/
def busOnce (ls : List BusEntry) (h : BusHandler) : List BusEntry :=
  ls ++ [.onceWrapped h]

/-! ## Geolocation manager (`part_002`, `GeolocationManager`)

The boundary check is the haversine `calculateDistance` (lines 689–703)
against `CONFIG.MAP.boundary` (`config` module).  `Math.atan2` is the
standard two-argument arctangent. -/

/-- JS `Math.atan2 y x`. -/
noncomputable def atan2 (y x : ℝ) : ℝ :=
  if 0 < x then Real.arctan (y / x)
  else if x = 0 then
    if 0 < y then Real.pi / 2
    else if y < 0 then -(Real.pi / 2)
    else 0
  else if 0 ≤ y then Real.arctan (y / x) + Real.pi
  else Real.arctan (y / x) - Real.pi

/-- Degrees to radians (`toRad` inside `calculateDistance`). -/
noncomputable def toRad (deg : ℝ) : ℝ :=
  deg * (Real.pi / 180)

/-- Embedding of `GeolocationManager.calculateDistance` (`part_002` lines 689–703):
haversine great-circle distance in kilometres, Earth radius 6371 km. -/
noncomputable def calculateDistance (lat1 lon1 lat2 lon2 : ℝ) : ℝ :=
  let dLat := toRad (lat2 - lat1)
  let dLon := toRad (lon2 - lon1)
  let a := Real.sin (dLat / 2) * Real.sin (dLat / 2) +
      Real.cos (toRad lat1) * Real.cos (toRad lat2) *
        Real.sin (dLon / 2) * Real.sin (dLon / 2)
  let c := 2 * atan2 (Real.sqrt a) (Real.sqrt (1 - a))
  6371 * c

/-- The `CONFIG.MAP.boundary.center` longitude (`config` module). -/
def boundaryCenterLon : ℝ := 5.977105864037915

/-- The `CONFIG.MAP.boundary.center` latitude (`config` module). -/
def boundaryCenterLat : ℝ := 50.88774161029858

/-- The `CONFIG.MAP.boundary.radius` in kilometres (`config` module). -/
def boundaryRadius : ℝ := 0.6

/-- Embedding of `GeolocationManager.isWithinBoundary` (`part_002` lines 675–685) on a
`[longitude, latitude]` position:
`calculateDistance(position[1], position[0], center[1], center[0])
  <= boundaryRadius`. -/
def IsWithinBoundary (position : ℝ × ℝ) : Prop :=
  calculateDistance position.2 position.1 boundaryCenterLat boundaryCenterLon
    ≤ boundaryRadius

/-- The geolocate control's private `_watchState`. -/
inductive WatchState : Type where
  | off
  | waiting
  | activeLock
  | activeError
  deriving Repr, DecidableEq

/-- The manager state read and written by the `_onSuccess` override. -/
structure GeoMgrState : Type where
  userInitiatedGeolocation : Bool
  watchState : WatchState
  deriving Repr, DecidableEq

/-- Side effects of one `_onSuccess` invocation, in execution order. -/
inductive GeoAction : Type where
  | setWatchStateOff
  | removeButtonActiveClasses
  | showBoundaryLayers
  | showBoundaryPopup
  | removeUserLocationDot
  | callOriginalOnSuccess
  deriving Repr, DecidableEq

/-- The `_onSuccess` override installed by `setupGeolocateControl`
(`part_002` lines 248–304): when the request was user-initiated and the
position is outside the boundary, tracking is cancelled
(`_watchState = 'OFF'`, button classes removed), the boundary layers and
the exit popup are shown, the location dot removed, and the
user-initiated flag reset; otherwise the control's original `_onSuccess`
runs and the flag is reset. -/
noncomputable def onSuccessOverride (g : GeoMgrState) (position : ℝ × ℝ) :
    GeoMgrState × List GeoAction :=
  @ite _ (g.userInitiatedGeolocation = true ∧ ¬ IsWithinBoundary position)
    (Classical.propDecidable _)
    ({ userInitiatedGeolocation := false, watchState := .off },
     [.setWatchStateOff, .removeButtonActiveClasses, .showBoundaryLayers,
      .showBoundaryPopup, .removeUserLocationDot])
    ({ g with userInitiatedGeolocation := false },
     [.callOriginalOnSuccess])

/-! ## Theorems -/

/-- Value of the rebuilt predicate on a feature when the active-filter
set is non-empty. -/
theorem passesFilter_nonempty (filters : List String) (hne : filters ≠ [])
    (f : MbFeature) :
    passesFilter (applyMapFiltersExpression filters) f =
      (match f.category with
       | some c => filters.contains c || decide (c = "")
       | none => true) := by
  have hlen : ¬ filters.length = 0 := by
    simpa [List.length_eq_zero] using hne
  cases hcat : f.category with
  | none =>
      simp [applyMapFiltersExpression, hlen, passesFilter, evalMb, evalAnyMb,
        isTrueVal, hcat]
  | some c =>
      simp [applyMapFiltersExpression, hlen, passesFilter, evalMb, evalAnyMb,
        isTrueVal, hcat]
      cases hx : decide (c ∈ filters) <;> cases hy : decide (c = "") <;>
        simp [hx, hy]

/-- C1: for every active-filter set and feature, the predicate rebuilt by
`applyMapFilters` passes the feature iff the set is empty, or the feature
has no `category` attribute, or its category is the empty string, or its
category is a member of the set. -/
theorem applyMapFilters_predicate (filters : List String) (f : MbFeature) :
    passesFilter (applyMapFiltersExpression filters) f = true ↔
      (filters = [] ∨ f.category = none ∨ f.category = some "" ∨
        ∃ c, f.category = some c ∧ c ∈ filters) := by
  by_cases hne : filters = []
  · subst hne
    simp [applyMapFiltersExpression, passesFilter]
  · rw [passesFilter_nonempty filters hne f]
    cases hcat : f.category with
    | none => simp [hne]
    | some c =>
        constructor
        · intro h
          have h' : c ∈ filters ∨ c = "" := by simpa using h
          rcases h' with h' | h'
          · exact Or.inr (Or.inr (Or.inr ⟨c, rfl, h'⟩))
          · exact Or.inr (Or.inr (Or.inl (by rw [h'])))
        · rintro (h | h | h | ⟨d, hd, hmem⟩)
          · exact absurd h hne
          · exact Option.noConfusion h
          · cases Option.some.inj h
            simp
          · cases Option.some.inj hd
            simp [hmem]

/-- Witness for C1 at the spec's scenario: active set `{"food"}`, feature
with `category: "food"`. -/
theorem applyMapFilters_predicate_witness :
    passesFilter (applyMapFiltersExpression ["food"])
        ⟨some "food"⟩ = true ↔
      ((["food"] : List String) = [] ∨
        (some "food" : Option String) = none ∨
        (some "food" : Option String) = some "" ∨
        ∃ c, (some "food" : Option String) = some c ∧ c ∈ ["food"]) :=
  applyMapFilters_predicate ["food"] ⟨some "food"⟩

/-- Rebuilding a JS set from an already duplicate-free list returns the
list itself. -/
theorem jsSetOfList_of_nodup : ∀ (acc l : List String),
    (acc ++ l).Nodup → l.foldl jsSetAdd acc = acc ++ l
  | acc, [], _ => by simp
  | acc, x :: xs, h => by
      have hx : x ∉ acc := fun hmem =>
        (List.disjoint_of_nodup_append h) hmem (by simp)
      have hstep : jsSetAdd acc x = acc ++ [x] := by
        simp [jsSetAdd, hx]
      have hrec := jsSetOfList_of_nodup (acc ++ [x]) xs (by simpa using h)
      calc (x :: xs).foldl jsSetAdd acc
          = xs.foldl jsSetAdd (jsSetAdd acc x) := rfl
        _ = xs.foldl jsSetAdd (acc ++ [x]) := by rw [hstep]
        _ = acc ++ [x] ++ xs := hrec
        _ = acc ++ x :: xs := by simp


/-- For a duplicate-free list, erasing an element removes it from the
corresponding finset. -/
theorem toFinset_erase_of_nodup (l : List String) (c : String)
    (h : l.Nodup) : (l.erase c).toFinset = l.toFinset.erase c := by
  ext a
  simp [List.mem_toFinset, h.mem_erase_iff, Finset.mem_erase]

/-- The two predicates rebuilt from set-equal filter lists agree on every
feature. -/
theorem passesFilter_congr (s₁ s₂ : List String)
    (hset : s₁.toFinset = s₂.toFinset) :
    passesFilter (applyMapFiltersExpression s₁) =
      passesFilter (applyMapFiltersExpression s₂) := by
  have hempty : s₁ = [] ↔ s₂ = [] := by
    constructor <;> intro h <;> subst h
    · have := hset.symm
      simpa [List.toFinset_eq_empty_iff] using this
    · simpa [List.toFinset_eq_empty_iff] using hset
  funext f
  by_cases h1 : s₁ = []
  · have h2 : s₂ = [] := hempty.mp h1
    subst h1; subst h2; rfl
  · have h2 : s₂ ≠ [] := fun h => h1 (hempty.mpr h)
    rw [passesFilter_nonempty s₁ h1 f, passesFilter_nonempty s₂ h2 f]
    cases f.category with
    | none => rfl
    | some c =>
        have hmem : c ∈ s₁ ↔ c ∈ s₂ := by
          rw [← List.mem_toFinset, ← List.mem_toFinset, hset]
        have hc : s₁.contains c = s₂.contains c := by
          by_cases hm : c ∈ s₁
          · have hm2 := hmem.mp hm
            simp [hm, hm2]
          · have hm2 : c ∉ s₂ := fun h => hm (hmem.mpr h)
            simp [hm, hm2]
        show (s₁.contains c || decide (c = "")) =
          (s₂.contains c || decide (c = ""))
        rw [hc]

/-- The double toggle of one category on a duplicate-free filter list,
made explicit: removing-then-re-adding appends the category at the end,
adding-then-removing restores the original list. -/
theorem toggleFilterSet_double_eq (s : List String) (c : String)
    (hs : s.Nodup) (hc : c ≠ "") :
    toggleFilterSet (toggleFilterSet s c) c =
      (if c ∈ s then s.erase c ++ [c] else s) := by
  by_cases hmem : c ∈ s
  · have hhas : jsSetHas s c = true := by simpa [jsSetHas] using hmem
    have herasend : (s.erase c).Nodup := hs.erase c
    have h1 : toggleFilterSet s c = s.erase c := by
      simp only [toggleFilterSet, if_neg hc, hhas, if_true, jsSetDelete,
        jsSetOfList]
      simpa using jsSetOfList_of_nodup [] (s.erase c) (by simpa using herasend)
    have h2 : c ∉ s.erase c := fun h => ((hs.mem_erase_iff).mp h).1 rfl
    have hhas2 : jsSetHas (s.erase c) c = false := by
      simp only [jsSetHas]
      simpa using h2
    have hnodup : ((s.erase c) ++ [c]).Nodup := by
      refine List.Nodup.append herasend (by simp) ?_
      intro a ha hb
      simp only [List.mem_singleton] at hb
      subst hb
      exact h2 ha
    have hcontains : (s.erase c).contains c = false := by simpa using h2
    rw [h1]
    simp only [toggleFilterSet, if_neg hc, hhas2, Bool.false_eq_true,
      if_false, jsSetAdd, hcontains, jsSetOfList, if_pos hmem]
    simpa using jsSetOfList_of_nodup [] (s.erase c ++ [c])
      (by simpa using hnodup)
  · have hcontains : s.contains c = false := by simpa using hmem
    have hhas : jsSetHas s c = false := hcontains
    have hadd : (s ++ [c]).Nodup := by
      refine List.Nodup.append hs (by simp) ?_
      intro a ha hb
      simp only [List.mem_singleton] at hb
      subst hb
      exact hmem ha
    have h1 : toggleFilterSet s c = s ++ [c] := by
      simp only [toggleFilterSet, if_neg hc, hhas, Bool.false_eq_true,
        if_false, jsSetAdd, hcontains, jsSetOfList]
      simpa using jsSetOfList_of_nodup [] (s ++ [c]) (by simpa using hadd)
    have hhas2 : jsSetHas (s ++ [c]) c = true := by
      simp [jsSetHas]
    have herase : (s ++ [c]).erase c = s := by
      rw [List.erase_append_right _ hmem, List.erase_cons_head,
        List.append_nil]
    rw [h1]
    simp only [toggleFilterSet, if_neg hc, hhas2, if_true, jsSetDelete,
      jsSetOfList, if_neg hmem, herase]
    simpa using jsSetOfList_of_nodup [] s (by simpa using hs)

/-- C8: toggling a category twice on a duplicate-free active-filter set
restores the set's contents (as a set of category strings) and re-applies
an equivalent render predicate. -/
theorem toggleFilter_double_identity (s : List String) (c : String)
    (hs : s.Nodup) :
    (toggleFilterSet (toggleFilterSet s c) c).toFinset = s.toFinset ∧
      passesFilter
          (applyMapFiltersExpression
            (toggleFilterSet (toggleFilterSet s c) c)) =
        passesFilter (applyMapFiltersExpression s) := by
  have hset :
      (toggleFilterSet (toggleFilterSet s c) c).toFinset = s.toFinset := by
    by_cases hc : c = ""
    · subst hc
      simp [toggleFilterSet]
    · rw [toggleFilterSet_double_eq s c hs hc]
      by_cases hmem : c ∈ s
      · rw [if_pos hmem, List.toFinset_append,
          toFinset_erase_of_nodup s c hs]
        simp only [List.toFinset_cons, List.toFinset_nil,
          insert_emptyc_eq]
        rw [Finset.union_comm]
        simpa using Finset.insert_erase (List.mem_toFinset.mpr hmem)
      · rw [if_neg hmem]
  exact ⟨hset, passesFilter_congr _ _ hset⟩

/-- Witness for C8: double-toggling `"retail"` on the active set
`{"food"}`. -/
theorem toggleFilter_double_identity_witness :
    (["food"] : List String).Nodup ∧
      ((toggleFilterSet (toggleFilterSet ["food"] "retail") "retail").toFinset
          = (["food"] : List String).toFinset ∧
        passesFilter
            (applyMapFiltersExpression
              (toggleFilterSet (toggleFilterSet ["food"] "retail") "retail")) =
          passesFilter (applyMapFiltersExpression ["food"])) :=
  ⟨by simp, toggleFilter_double_identity ["food"] "retail" (by simp)⟩


/-- Soundness of `jsPrimEq`: identical-by-`SameValueZero` parsed values are
equal. -/
theorem jsPrimEq_eq {x y : Json} (h : jsPrimEq x y = true) : x = y := by
  cases x <;> cases y <;> simp_all [jsPrimEq]

/-- Membership through one JS `Set.add` step. -/
theorem mem_jsSetAddJ (acc : List Json) (x z : Json) :
    z ∈ jsSetAddJ acc x ↔ z ∈ acc ∨ z = x := by
  by_cases h : acc.any (fun y => jsPrimEq y x) = true
  · have hx : x ∈ acc := by
      rcases List.any_eq_true.mp h with ⟨y, hy, he⟩
      exact (jsPrimEq_eq he) ▸ hy
    simp only [jsSetAddJ, h, if_true]
    constructor
    · exact Or.inl
    · rintro (hz | rfl)
      · exact hz
      · exact hx
  · simp [jsSetAddJ, h]

/-- Membership through the JS `Set` constructor fold. -/
theorem mem_jsSetFoldJ : ∀ (l acc : List Json) (z : Json),
    z ∈ l.foldl jsSetAddJ acc ↔ z ∈ acc ∨ z ∈ l
  | [], acc, z => by simp
  | x :: xs, acc, z => by
      rw [List.foldl_cons, mem_jsSetFoldJ xs (jsSetAddJ acc x) z,
        mem_jsSetAddJ]
      simp only [List.mem_cons]
      tauto

/-- Membership in a rebuilt JS set of parsed values. -/
theorem mem_jsSetOfListJ (l : List Json) (z : Json) :
    z ∈ jsSetOfListJ l ↔ z ∈ l := by
  rw [jsSetOfListJ, mem_jsSetFoldJ]
  simp

/-- C4: saving an active-filter set to storage and loading it back
restores a set with exactly the original category strings as members
(order-independent set equality). -/
theorem saveLoad_roundtrip (s : List String) (j : Json) :
    j ∈ loadFiltersAndUpdateMap (saveMapFiltersToLocalStorage s) ↔
      j ∈ s.map Json.str := by
  show j ∈ jsSetOfListJ (jsSetOfListJ (s.map Json.str)) ↔ _
  rw [mem_jsSetOfListJ, mem_jsSetOfListJ]

/-- Witness for C4 at a concrete set. -/
theorem saveLoad_roundtrip_witness :
    Json.str "food" ∈
        loadFiltersAndUpdateMap (saveMapFiltersToLocalStorage ["food"]) ↔
      Json.str "food" ∈ (["food"] : List String).map Json.str :=
  saveLoad_roundtrip ["food"] (Json.str "food")

/-- The class of storage-slot contents on which loading degrades to the
empty set: an absent key, an unparsable value, or a parsed JSON value
that the `Set` constructor cannot iterate (`null`, booleans, numbers,
plain objects — `null` is accepted and yields the empty set, the others
throw a caught `TypeError`).  JSON strings and arrays are NOT in this
class: they are iterable. -/
def slotDegradesToEmpty : Option (Except Unit Json) → Bool
  | none => true
  | some (.error _) => true
  | some (.ok .null) => true
  | some (.ok (.bool _)) => true
  | some (.ok (.num _)) => true
  | some (.ok (.obj _)) => true
  | some (.ok (.arr _)) => false
  | some (.ok (.str _)) => false

/-- C7 (counterexample): the malformed persisted value `"ab"` — a JSON
string, not the documented JSON array of category strings — does NOT load
as the empty filter set: `new Set("ab")` iterates the characters, so the
restored active-filter set is `{"a", "b"}`. -/
theorem loadFilters_malformed_counterexample :
    isFilterStringArray (Json.str "ab") = false ∧
      loadFiltersAndUpdateMap (some (.ok (Json.str "ab"))) =
        [Json.str "a", Json.str "b"] := by
  constructor
  · rfl
  · rfl

/-- C7 (amended): loading yields the empty active-filter set, with no
error surfaced, for every persisted value that is absent, fails to parse,
or parses to a non-iterable JSON value (`null`, boolean, number, object);
a malformed value that parses to a JSON string or array instead yields
the set of the string's characters or of the array's elements. -/
theorem loadFilters_failopen (slot : Option (Except Unit Json))
    (h : slotDegradesToEmpty slot = true) :
    loadFiltersAndUpdateMap slot = [] := by
  match slot with
  | none => rfl
  | some (.error e) => rfl
  | some (.ok .null) => rfl
  | some (.ok (.bool b)) => rfl
  | some (.ok (.num q)) => rfl
  | some (.ok (.obj fs)) => rfl
  | some (.ok (.arr l)) => exact absurd h (by simp [slotDegradesToEmpty])
  | some (.ok (.str t)) => exact absurd h (by simp [slotDegradesToEmpty])

/-- Witness for C7 (amended): the absent key loads as the empty set. -/
theorem loadFilters_failopen_witness :
    slotDegradesToEmpty none = true ∧
      loadFiltersAndUpdateMap none = [] :=
  ⟨rfl, loadFilters_failopen none rfl⟩

/-- The subscriber-notification loop produces exactly one notification
per registered subscriber, in registration order. -/
theorem notifySubscribers_eq_map : ∀ (subs : List Subscriber)
    (acc : List TraceAct),
    subs.foldl (fun acc s => acc ++ [.notify s.sid]) acc =
      acc ++ subs.map (fun s => TraceAct.notify s.sid)
  | [], acc => by simp
  | s :: rest, acc => by
      rw [List.foldl_cons]
      rw [notifySubscribers_eq_map rest (acc ++ [TraceAct.notify s.sid])]
      simp

/-- C6: one `setState` call notifies every registered subscriber, in
registration order, before emitting any derived event; the full trace —
all notifications followed by all derived-event emissions — completes
before control returns with the updated state. -/
theorem setState_ordering (subs : List Subscriber) (st : MAppState)
    (u : StateUpdates) :
    (setState subs st u).2 =
      subs.map (fun s => TraceAct.notify s.sid) ++
        (emitStateChangeEvents st (applyUpdates st u)).map TraceAct.emitEv ∧
      (setState subs st u).1 = applyUpdates st u := by
  refine ⟨?_, rfl⟩
  show notifySubscribers subs ++ _ = _
  rw [notifySubscribers, notifySubscribers_eq_map subs []]
  simp

/-- Witness for C6 at a concrete mutation: two subscribers (the second
one throwing) and a popup-opening update. -/
theorem setState_ordering_witness :
    (setState [⟨0, false⟩, ⟨1, true⟩]
          ⟨false, none, false, false, 0, []⟩
          { activePopup := some (some 7) }).2 =
      ([⟨0, false⟩, ⟨1, true⟩] : List Subscriber).map
          (fun s => TraceAct.notify s.sid) ++
        (emitStateChangeEvents ⟨false, none, false, false, 0, []⟩
            (applyUpdates ⟨false, none, false, false, 0, []⟩
              { activePopup := some (some 7) })).map TraceAct.emitEv ∧
      (setState [⟨0, false⟩, ⟨1, true⟩]
          ⟨false, none, false, false, 0, []⟩
          { activePopup := some (some 7) }).1 =
        applyUpdates ⟨false, none, false, false, 0, []⟩
          { activePopup := some (some 7) } :=
  setState_ordering [⟨0, false⟩, ⟨1, true⟩]
    ⟨false, none, false, false, 0, []⟩ { activePopup := some (some 7) }

/-- A popup-closed event is emitted exactly for the `non-null → null`
transition, carrying the previous handle. -/
theorem popupClosed_mem_iff (prev cur : MAppState) (r : ℕ) :
    SMEvent.popupClosed r ∈ emitStateChangeEvents prev cur ↔
      (cur.activePopup = none ∧ prev.activePopup = some r) := by
  rcases hc : cur.activePopup with _ | p <;>
    rcases hp : prev.activePopup with _ | q
  · simp [emitStateChangeEvents, hc, hp]
  · simp [emitStateChangeEvents, hc, hp]
    exact eq_comm
  · simp [emitStateChangeEvents, hc, hp]
  · by_cases hpq : q = p
    · subst hpq
      simp [emitStateChangeEvents, hc, hp]
    · simp [emitStateChangeEvents, hc, hp, hpq]

/-- C10: replacing one non-null popup handle by a different non-null one
emits only a popup-opened event for the new handle and no popup-closed
event; a popup-closed event occurs exactly when the new handle is null
and the previous one was non-null. -/
theorem popup_transition_events (prev cur : MAppState) :
    (∀ p q, prev.activePopup = some p → cur.activePopup = some q → p ≠ q →
      (SMEvent.popupOpened q ∈ emitStateChangeEvents prev cur ∧
        ∀ r, SMEvent.popupClosed r ∉ emitStateChangeEvents prev cur)) ∧
      (∀ r, SMEvent.popupClosed r ∈ emitStateChangeEvents prev cur ↔
        (cur.activePopup = none ∧ prev.activePopup = some r)) := by
  constructor
  · intro p q hp hq hne
    have hne2 : prev.activePopup ≠ some q := by
      rw [hp]
      simpa using hne
    constructor
    · simp [emitStateChangeEvents, hq, hne2]
    · intro r hr
      rcases (popupClosed_mem_iff prev cur r).mp hr with ⟨hnone, _⟩
      rw [hq] at hnone
      exact Option.noConfusion hnone
  · exact popupClosed_mem_iff prev cur

/-- Witness for C10: replacing popup handle `1` by popup handle `2`. -/
theorem popup_transition_events_witness :
    (∀ p q, (⟨false, some 1, false, false, 0, []⟩ : MAppState).activePopup
          = some p →
        (⟨false, some 2, false, false, 0, []⟩ : MAppState).activePopup
          = some q → p ≠ q →
      (SMEvent.popupOpened q ∈
          emitStateChangeEvents ⟨false, some 1, false, false, 0, []⟩
            ⟨false, some 2, false, false, 0, []⟩ ∧
        ∀ r, SMEvent.popupClosed r ∉
          emitStateChangeEvents ⟨false, some 1, false, false, 0, []⟩
            ⟨false, some 2, false, false, 0, []⟩)) ∧
      (∀ r, SMEvent.popupClosed r ∈
          emitStateChangeEvents ⟨false, some 1, false, false, 0, []⟩
            ⟨false, some 2, false, false, 0, []⟩ ↔
        ((⟨false, some 2, false, false, 0, []⟩ : MAppState).activePopup
            = none ∧
          (⟨false, some 1, false, false, 0, []⟩ : MAppState).activePopup
            = some r)) :=
  popup_transition_events ⟨false, some 1, false, false, 0, []⟩
    ⟨false, some 2, false, false, 0, []⟩


/-- One `getGeoData` iteration only ever adds to the counters, starting
from whatever they were. -/
theorem getGeoStep_shift (fs : List LoadedFeature) (l s : ℕ) (r : GeoRecord) :
    getGeoStep (fs, l, s) r =
      ((getGeoStep (fs, 0, 0) r).1,
        l + (getGeoStep (fs, 0, 0) r).2.1,
        s + (getGeoStep (fs, 0, 0) r).2.2) := by
  by_cases hv : geoValid r = true
  · by_cases hd : fs.any (fun f => featHasId f r.locationID) = true
    · simp [getGeoStep, hv, hd]
    · simp [getGeoStep, hv, hd]
  · simp [getGeoStep, hv]

/-- The `getGeoData` fold splits off initial counter values. -/
theorem getGeoData_acc_shift : ∀ (rs : List GeoRecord)
    (fs : List LoadedFeature) (l s : ℕ),
    rs.foldl getGeoStep (fs, l, s) =
      ((rs.foldl getGeoStep (fs, 0, 0)).1,
        l + (rs.foldl getGeoStep (fs, 0, 0)).2.1,
        s + (rs.foldl getGeoStep (fs, 0, 0)).2.2)
  | [], fs, l, s => by simp
  | r :: rs, fs, l, s => by
      have IH := getGeoData_acc_shift rs
      rw [List.foldl_cons, List.foldl_cons, getGeoStep_shift fs l s r,
        getGeoStep_shift fs 0 0 r]
      rcases getGeoStep (fs, 0, 0) r with ⟨A, a, b⟩
      dsimp only
      rw [Nat.zero_add, Nat.zero_add, IH A (l + a) (s + b), IH A a b]
      simp only [Prod.mk.injEq]
      exact ⟨trivial, by omega, by omega⟩

/-- One `getARData` iteration only ever adds to the counters. -/
theorem getARStep_shift (fs : List LoadedFeature) (l s : ℕ) (r : ARRecord) :
    getARStep (fs, l, s) r =
      ((getARStep (fs, 0, 0) r).1,
        l + (getARStep (fs, 0, 0) r).2.1,
        s + (getARStep (fs, 0, 0) r).2.2) := by
  by_cases hv : arCoordsValid r = true
  · by_cases hl : arLinksPresent r = true
    · simp [getARStep, hv, hl]
    · simp [getARStep, hv, hl]
  · simp [getARStep, hv]

/-- The `getARData` fold splits off initial counter values. -/
theorem getARData_acc_shift : ∀ (rs : List ARRecord)
    (fs : List LoadedFeature) (l s : ℕ),
    rs.foldl getARStep (fs, l, s) =
      ((rs.foldl getARStep (fs, 0, 0)).1,
        l + (rs.foldl getARStep (fs, 0, 0)).2.1,
        s + (rs.foldl getARStep (fs, 0, 0)).2.2)
  | [], fs, l, s => by simp
  | r :: rs, fs, l, s => by
      have IH := getARData_acc_shift rs
      rw [List.foldl_cons, List.foldl_cons, getARStep_shift fs l s r,
        getARStep_shift fs 0 0 r]
      rcases getARStep (fs, 0, 0) r with ⟨A, a, b⟩
      dsimp only
      rw [Nat.zero_add, Nat.zero_add, IH A (l + a) (s + b), IH A a b]
      simp only [Prod.mk.injEq]
      exact ⟨trivial, by omega, by omega⟩


/-- The feature list produced by the `getGeoData` fold does not depend on
the incoming counter values. -/
theorem getGeoData_feats_acc (rs : List GeoRecord) (fs : List LoadedFeature)
    (l s : ℕ) :
    (rs.foldl getGeoStep (fs, l, s)).1 = (rs.foldl getGeoStep (fs, 0, 0)).1 := by
  rw [getGeoData_acc_shift rs fs l s]

/-- The skipped counter of the `getGeoData` fold adds to its initial
value. -/
theorem getGeoData_skipped_acc (rs : List GeoRecord) (fs : List LoadedFeature)
    (l s : ℕ) :
    (rs.foldl getGeoStep (fs, l, s)).2.2 =
      s + (rs.foldl getGeoStep (fs, 0, 0)).2.2 := by
  rw [getGeoData_acc_shift rs fs l s]

/-- The loaded counter of the `getGeoData` fold adds to its initial
value. -/
theorem getGeoData_loaded_acc (rs : List GeoRecord) (fs : List LoadedFeature)
    (l s : ℕ) :
    (rs.foldl getGeoStep (fs, l, s)).2.1 =
      l + (rs.foldl getGeoStep (fs, 0, 0)).2.1 := by
  rw [getGeoData_acc_shift rs fs l s]

/-- Records with invalid coordinates contribute nothing to the feature
list `getGeoData` produces. -/
theorem geo_features_filter : ∀ (rs : List GeoRecord) (fs : List LoadedFeature),
    (rs.foldl getGeoStep (fs, 0, 0)).1 =
      ((rs.filter geoValid).foldl getGeoStep (fs, 0, 0)).1
  | [], _ => rfl
  | r :: rs, fs => by
      by_cases hv : geoValid r = true
      · rw [List.filter_cons_of_pos hv, List.foldl_cons, List.foldl_cons]
        rcases getGeoStep (fs, 0, 0) r with ⟨A, a, b⟩
        rw [getGeoData_feats_acc rs A a b,
          getGeoData_feats_acc (rs.filter geoValid) A a b]
        exact geo_features_filter rs A
      · rw [List.filter_cons_of_neg hv, List.foldl_cons]
        have hstep : getGeoStep (fs, 0, 0) r = (fs, 0, 1) := by
          simp [getGeoStep, hv]
        rw [hstep, getGeoData_feats_acc rs fs 0 1]
        exact geo_features_filter rs fs

/-- Each coordinate-invalid record bumps `getGeoData`'s skipped counter
by exactly one. -/
theorem geo_skipped_filter : ∀ (rs : List GeoRecord) (fs : List LoadedFeature),
    (rs.foldl getGeoStep (fs, 0, 0)).2.2 =
      ((rs.filter geoValid).foldl getGeoStep (fs, 0, 0)).2.2 +
        (rs.filter (fun r => !geoValid r)).length
  | [], _ => rfl
  | r :: rs, fs => by
      by_cases hv : geoValid r = true
      · rw [List.filter_cons_of_pos hv,
          List.filter_cons_of_neg (by simp [hv]), List.foldl_cons,
          List.foldl_cons]
        rcases getGeoStep (fs, 0, 0) r with ⟨A, a, b⟩
        rw [getGeoData_skipped_acc rs A a b,
          getGeoData_skipped_acc (rs.filter geoValid) A a b,
          geo_skipped_filter rs A]
        omega
      · rw [List.filter_cons_of_neg hv,
          List.filter_cons_of_pos (by simp [hv]), List.foldl_cons]
        have hstep : getGeoStep (fs, 0, 0) r = (fs, 0, 1) := by
          simp [getGeoStep, hv]
        rw [hstep, getGeoData_skipped_acc rs fs 0 1,
          geo_skipped_filter rs fs]
        simp [Nat.add_comm, Nat.add_assoc, Nat.add_left_comm]

/-- Feature-list independence from counters, AR side. -/
theorem getARData_feats_acc (rs : List ARRecord) (fs : List LoadedFeature)
    (l s : ℕ) :
    (rs.foldl getARStep (fs, l, s)).1 = (rs.foldl getARStep (fs, 0, 0)).1 := by
  rw [getARData_acc_shift rs fs l s]

/-- Skipped-counter additivity, AR side. -/
theorem getARData_skipped_acc (rs : List ARRecord) (fs : List LoadedFeature)
    (l s : ℕ) :
    (rs.foldl getARStep (fs, l, s)).2.2 =
      s + (rs.foldl getARStep (fs, 0, 0)).2.2 := by
  rw [getARData_acc_shift rs fs l s]

/-- Records with invalid coordinates contribute nothing to the feature
list `getARData` produces. -/
theorem ar_features_filter : ∀ (rs : List ARRecord) (fs : List LoadedFeature),
    (rs.foldl getARStep (fs, 0, 0)).1 =
      ((rs.filter arCoordsValid).foldl getARStep (fs, 0, 0)).1
  | [], _ => rfl
  | r :: rs, fs => by
      by_cases hv : arCoordsValid r = true
      · rw [List.filter_cons_of_pos hv, List.foldl_cons, List.foldl_cons]
        rcases getARStep (fs, 0, 0) r with ⟨A, a, b⟩
        rw [getARData_feats_acc rs A a b,
          getARData_feats_acc (rs.filter arCoordsValid) A a b]
        exact ar_features_filter rs A
      · rw [List.filter_cons_of_neg hv, List.foldl_cons]
        have hstep : getARStep (fs, 0, 0) r = (fs, 0, 1) := by
          simp [getARStep, hv]
        rw [hstep, getARData_feats_acc rs fs 0 1]
        exact ar_features_filter rs fs

/-- Each coordinate-invalid AR record bumps `getARData`'s skipped counter
by exactly one. -/
theorem ar_skipped_filter : ∀ (rs : List ARRecord) (fs : List LoadedFeature),
    (rs.foldl getARStep (fs, 0, 0)).2.2 =
      ((rs.filter arCoordsValid).foldl getARStep (fs, 0, 0)).2.2 +
        (rs.filter (fun r => !arCoordsValid r)).length
  | [], _ => rfl
  | r :: rs, fs => by
      by_cases hv : arCoordsValid r = true
      · rw [List.filter_cons_of_pos hv,
          List.filter_cons_of_neg (by simp [hv]), List.foldl_cons,
          List.foldl_cons]
        rcases getARStep (fs, 0, 0) r with ⟨A, a, b⟩
        rw [getARData_skipped_acc rs A a b,
          getARData_skipped_acc (rs.filter arCoordsValid) A a b,
          ar_skipped_filter rs A]
        omega
      · rw [List.filter_cons_of_neg hv,
          List.filter_cons_of_pos (by simp [hv]), List.foldl_cons]
        have hstep : getARStep (fs, 0, 0) r = (fs, 0, 1) := by
          simp [getARStep, hv]
        rw [hstep, getARData_skipped_acc rs fs 0 1,
          ar_skipped_filter rs fs]
        simp [Nat.add_comm, Nat.add_assoc, Nat.add_left_comm]

/-- C2: in either loader, every record whose latitude or longitude is
missing or non-numeric (`parseFloat` gave `NaN`) is excluded from the
produced feature collection — the output equals the output on the
coordinate-valid records alone — and the skipped counter grows by exactly
one per such record. -/
theorem invalid_coordinates_skipped (init : List LoadedFeature)
    (gs : List GeoRecord) (as : List ARRecord) :
    ((getGeoData init gs).1 = (getGeoData init (gs.filter geoValid)).1 ∧
      (getGeoData init gs).2.2 =
        (getGeoData init (gs.filter geoValid)).2.2 +
          (gs.filter (fun r => !geoValid r)).length) ∧
    ((getARData init as).1 = (getARData init (as.filter arCoordsValid)).1 ∧
      (getARData init as).2.2 =
        (getARData init (as.filter arCoordsValid)).2.2 +
          (as.filter (fun r => !arCoordsValid r)).length) :=
  ⟨⟨geo_features_filter gs init, geo_skipped_filter gs init⟩,
    ⟨ar_features_filter as init, ar_skipped_filter as init⟩⟩

/-- Witness for C2: a NaN-latitude location record and a NaN-longitude AR
record, loaded from the empty state. -/
theorem invalid_coordinates_skipped_witness :
    ((getGeoData [] [⟨.nan, .finite 6, "a"⟩]).1 =
        (getGeoData [] ([⟨.nan, .finite 6, "a"⟩].filter geoValid)).1 ∧
      (getGeoData [] [⟨.nan, .finite 6, "a"⟩]).2.2 =
        (getGeoData [] ([⟨.nan, .finite 6, "a"⟩].filter geoValid)).2.2 +
          ([(⟨.nan, .finite 6, "a"⟩ : GeoRecord)].filter
            (fun r => !geoValid r)).length) ∧
    ((getARData [] [⟨.finite 50, .nan, "b", some "x", none⟩]).1 =
        (getARData []
          ([⟨.finite 50, .nan, "b", some "x", none⟩].filter arCoordsValid)).1 ∧
      (getARData [] [⟨.finite 50, .nan, "b", some "x", none⟩]).2.2 =
        (getARData []
            ([⟨.finite 50, .nan, "b", some "x", none⟩].filter
              arCoordsValid)).2.2 +
          ([(⟨.finite 50, .nan, "b", some "x", none⟩ : ARRecord)].filter
            (fun r => !arCoordsValid r)).length) :=
  invalid_coordinates_skipped [] [⟨.nan, .finite 6, "a"⟩]
    [⟨.finite 50, .nan, "b", some "x", none⟩]


/-- First-wins characterization of the `getGeoData` fold: the first
feature with a given id in the output is the feature already present, or
else the one built from the first coordinate-valid record with that id. -/
theorem geo_find_first : ∀ (rs : List GeoRecord) (fs : List LoadedFeature)
    (q : String),
    ((rs.foldl getGeoStep (fs, 0, 0)).1.find? (fun f => featHasId f q)) =
      (fs.find? (fun f => featHasId f q)).or
        (((rs.filter geoValid).find?
            (fun r => r.locationID = q)).map mkGeoFeature)
  | [], fs, q => by simp
  | r :: rs, fs, q => by
      by_cases hv : geoValid r = true
      · by_cases hd : fs.any (fun f => featHasId f r.locationID) = true
        · have hstep : getGeoStep (fs, 0, 0) r = (fs, 0, 1) := by
            simp only [getGeoStep, hv, if_true, hd]
          rw [List.filter_cons_of_pos hv, List.foldl_cons, hstep,
            getGeoData_feats_acc rs fs 0 1, geo_find_first rs fs q]
          by_cases hq : r.locationID = q
          · subst hq
            have hsome : (fs.find? (fun f => featHasId f r.locationID)).isSome := by
              rw [List.find?_isSome]
              exact List.any_eq_true.mp hd
            rcases ho : fs.find? (fun f => featHasId f r.locationID) with _ | f
            · rw [ho] at hsome
              exact absurd hsome (by simp)
            · rfl
          · rw [List.find?_cons_of_neg _ (by simpa using hq)]
        · have hstep : getGeoStep (fs, 0, 0) r =
              (fs ++ [mkGeoFeature r], 1, 0) := by
            simp only [getGeoStep, hv, if_true, hd, Bool.false_eq_true,
              if_false]
          rw [List.filter_cons_of_pos hv, List.foldl_cons, hstep,
            getGeoData_feats_acc rs (fs ++ [mkGeoFeature r]) 1 0,
            geo_find_first rs (fs ++ [mkGeoFeature r]) q,
            List.find?_append]
          by_cases hq : r.locationID = q
          · subst hq
            have hone : [mkGeoFeature r].find? (fun f => featHasId f r.locationID)
                = some (mkGeoFeature r) := by
              apply List.find?_cons_of_pos
              simp [featHasId, mkGeoFeature]
            have hnone : fs.find? (fun f => featHasId f r.locationID) = none := by
              rw [List.find?_eq_none]
              intro x hx
              simp only [Bool.not_eq_true]
              rcases hfa : featHasId x r.locationID with _ | _
              · rfl
              · exact absurd (List.any_eq_true.mpr ⟨x, hx, hfa⟩) hd
            rw [hone, hnone, List.find?_cons_of_pos _ (by simp)]
            rfl
          · have hone : [mkGeoFeature r].find? (fun f => featHasId f q)
                = none := by
              rw [List.find?_eq_none]
              intro x hx
              simp only [List.mem_singleton] at hx
              subst hx
              simpa [featHasId, mkGeoFeature] using hq
            rw [hone, Option.or_none,
              List.find?_cons_of_neg _ (by simpa using hq)]
      · have hstep : getGeoStep (fs, 0, 0) r = (fs, 0, 1) := by
          simp [getGeoStep, hv]
        rw [List.filter_cons_of_neg hv, List.foldl_cons, hstep,
          getGeoData_feats_acc rs fs 0 1]
        exact geo_find_first rs fs q

/-- The `getGeoData` fold preserves duplicate-freedom of the feature
ids. -/
theorem geo_ids_nodup : ∀ (rs : List GeoRecord) (fs : List LoadedFeature),
    (fs.filterMap featGeoId).Nodup →
    ((rs.foldl getGeoStep (fs, 0, 0)).1.filterMap featGeoId).Nodup
  | [], _, h => h
  | r :: rs, fs, h => by
      by_cases hv : geoValid r = true
      · by_cases hd : fs.any (fun f => featHasId f r.locationID) = true
        · have hstep : getGeoStep (fs, 0, 0) r = (fs, 0, 1) := by
            simp only [getGeoStep, hv, if_true, hd]
          rw [List.foldl_cons, hstep, getGeoData_feats_acc rs fs 0 1]
          exact geo_ids_nodup rs fs h
        · have hstep : getGeoStep (fs, 0, 0) r =
              (fs ++ [mkGeoFeature r], 1, 0) := by
            simp only [getGeoStep, hv, if_true, hd, Bool.false_eq_true,
              if_false]
          rw [List.foldl_cons, hstep,
            getGeoData_feats_acc rs (fs ++ [mkGeoFeature r]) 1 0]
          refine geo_ids_nodup rs (fs ++ [mkGeoFeature r]) ?_
          rw [List.filterMap_append]
          have hsingle : ([mkGeoFeature r].filterMap featGeoId) =
              [r.locationID] := rfl
          rw [hsingle]
          refine List.Nodup.append h (List.nodup_singleton _) ?_
          intro a ha hb
          simp only [List.mem_singleton] at hb
          subst hb
          rcases List.mem_filterMap.mp ha with ⟨f, hf, hid⟩
          have : featHasId f r.locationID = true := by
            cases f with
            | geo i c =>
                simp only [featGeoId, Option.some.injEq] at hid
                simp [featHasId, hid]
            | ar n c => simp [featGeoId] at hid
          exact absurd (List.any_eq_true.mpr ⟨f, hf, this⟩) hd
      · have hstep : getGeoStep (fs, 0, 0) r = (fs, 0, 1) := by
          simp [getGeoStep, hv]
        rw [List.foldl_cons, hstep, getGeoData_feats_acc rs fs 0 1]
        exact geo_ids_nodup rs fs h

/-- The loaded counter counts exactly the features appended by the
fold. -/
theorem geo_loaded_len : ∀ (rs : List GeoRecord) (fs : List LoadedFeature),
    (rs.foldl getGeoStep (fs, 0, 0)).1.length =
      fs.length + (rs.foldl getGeoStep (fs, 0, 0)).2.1
  | [], _ => by simp
  | r :: rs, fs => by
      by_cases hv : geoValid r = true
      · by_cases hd : fs.any (fun f => featHasId f r.locationID) = true
        · have hstep : getGeoStep (fs, 0, 0) r = (fs, 0, 1) := by
            simp only [getGeoStep, hv, if_true, hd]
          rw [List.foldl_cons, hstep, getGeoData_feats_acc rs fs 0 1,
            getGeoData_loaded_acc rs fs 0 1, Nat.zero_add]
          exact geo_loaded_len rs fs
        · have hstep : getGeoStep (fs, 0, 0) r =
              (fs ++ [mkGeoFeature r], 1, 0) := by
            simp only [getGeoStep, hv, if_true, hd, Bool.false_eq_true,
              if_false]
          rw [List.foldl_cons, hstep,
            getGeoData_feats_acc rs (fs ++ [mkGeoFeature r]) 1 0,
            getGeoData_loaded_acc rs (fs ++ [mkGeoFeature r]) 1 0,
            geo_loaded_len rs (fs ++ [mkGeoFeature r])]
          simp
          omega
      · have hstep : getGeoStep (fs, 0, 0) r = (fs, 0, 1) := by
          simp [getGeoStep, hv]
        rw [List.foldl_cons, hstep, getGeoData_feats_acc rs fs 0 1,
          getGeoData_loaded_acc rs fs 0 1, Nat.zero_add]
        exact geo_loaded_len rs fs

/-- Every record of one `getGeoData` pass lands in exactly one counter:
loaded + skipped = number of records. -/
theorem geo_counters_total : ∀ (rs : List GeoRecord) (fs : List LoadedFeature),
    (rs.foldl getGeoStep (fs, 0, 0)).2.1 +
      (rs.foldl getGeoStep (fs, 0, 0)).2.2 = rs.length
  | [], _ => rfl
  | r :: rs, fs => by
      rw [List.foldl_cons]
      rcases h : getGeoStep (fs, 0, 0) r with ⟨A, a, b⟩
      rw [getGeoData_loaded_acc rs A a b, getGeoData_skipped_acc rs A a b]
      have hone : a + b = 1 := by
        by_cases hv : geoValid r = true
        · by_cases hd : fs.any (fun f => featHasId f r.locationID) = true
          · simp only [getGeoStep, hv, if_true, hd, Prod.mk.injEq] at h
            omega
          · simp only [getGeoStep, hv, if_true, hd, Bool.false_eq_true,
              if_false, Prod.mk.injEq] at h
            omega
        · simp only [getGeoStep, hv, Bool.false_eq_true, if_false,
            Prod.mk.injEq] at h
          omega
      have htot := geo_counters_total rs A
      simp only [List.length_cons]
      omega

/-- The loader `getARData` appends exactly the AR features of the records passing
both the coordinate and the link check, in order. -/
theorem ar_feats_append : ∀ (rs : List ARRecord) (init : List LoadedFeature),
    (rs.foldl getARStep (init, 0, 0)).1 =
      init ++ (rs.filter
          (fun r => arCoordsValid r && arLinksPresent r)).map mkARFeature
  | [], init => by simp
  | r :: rs, init => by
      by_cases hv : arCoordsValid r = true
      · by_cases hl : arLinksPresent r = true
        · have hstep : getARStep (init, 0, 0) r =
              (init ++ [mkARFeature r], 1, 0) := by
            simp only [getARStep, hv, if_true, hl]
          rw [List.filter_cons_of_pos (by simp [hv, hl]), List.foldl_cons,
            hstep, getARData_feats_acc rs (init ++ [mkARFeature r]) 1 0,
            ar_feats_append rs (init ++ [mkARFeature r])]
          simp
        · have hstep : getARStep (init, 0, 0) r = (init, 0, 1) := by
            simp only [getARStep, hv, if_true, hl, Bool.false_eq_true,
              if_false]
          rw [List.filter_cons_of_neg (by simp [hv, hl]), List.foldl_cons,
            hstep, getARData_feats_acc rs init 0 1]
          exact ar_feats_append rs init
      · have hstep : getARStep (init, 0, 0) r = (init, 0, 1) := by
          simp [getARStep, hv]
        rw [List.filter_cons_of_neg (by simp [hv]), List.foldl_cons, hstep,
          getARData_feats_acc rs init 0 1]
        exact ar_feats_append rs init

/-- C5: in one load pass, for every id only the first-encountered
coordinate-valid record's feature appears (the output's feature for an id
is built from the first valid record carrying it, ids are duplicate-free
in the whole collection), and every record is counted exactly once:
loaded equals the number of emitted features and loaded + skipped covers
all records. -/
theorem duplicate_id_first_wins (gs : List GeoRecord) (as : List ARRecord) :
    (∀ q : String,
      ((loadLocationData gs as).find? (fun f => featHasId f q)) =
        (((gs.filter geoValid).find?
            (fun r => r.locationID = q)).map mkGeoFeature)) ∧
      ((loadLocationData gs as).filterMap featGeoId).Nodup ∧
      (getGeoData [] gs).2.1 = (getGeoData [] gs).1.length ∧
      (getGeoData [] gs).2.1 + (getGeoData [] gs).2.2 = gs.length := by
  have hload : loadLocationData gs as =
      (gs.foldl getGeoStep ([], 0, 0)).1 ++
        (as.filter (fun r => arCoordsValid r && arLinksPresent r)).map
          mkARFeature := by
    show (getARData (getGeoData [] gs).1 as).1 = _
    exact ar_feats_append as (getGeoData [] gs).1
  refine ⟨?_, ?_, ?_, ?_⟩
  · intro q
    rw [hload, List.find?_append]
    have har : ((as.filter (fun r => arCoordsValid r && arLinksPresent r)).map
        mkARFeature).find? (fun f => featHasId f q) = none := by
      rw [List.find?_eq_none]
      intro x hx
      rcases List.mem_map.mp hx with ⟨r, _, hr⟩
      subst hr
      simp [mkARFeature, featHasId]
    rw [har, Option.or_none, geo_find_first gs [] q]
    simp
  · rw [hload, List.filterMap_append]
    have har : ((as.filter (fun r => arCoordsValid r && arLinksPresent r)).map
        mkARFeature).filterMap featGeoId = [] := by
      rw [List.filterMap_map]
      have hnone : (featGeoId ∘ mkARFeature) =
          fun _ => (none : Option String) := by
        funext r
        rfl
      rw [hnone]
      simp
    rw [har, List.append_nil]
    exact geo_ids_nodup gs [] (by simp)
  · have := geo_loaded_len gs []
    simpa using this.symm
  · exact geo_counters_total gs []


/-- Witness for C5: two coordinate-valid records sharing id `"a"`. -/
theorem duplicate_id_first_wins_witness :
    (∀ q : String,
      ((loadLocationData
          [⟨.finite 1, .finite 2, "a"⟩, ⟨.finite 3, .finite 4, "a"⟩]
          []).find? (fun f => featHasId f q)) =
        ((([⟨.finite 1, .finite 2, "a"⟩,
            ⟨.finite 3, .finite 4, "a"⟩] : List GeoRecord).filter
              geoValid).find? (fun r => r.locationID = q)).map mkGeoFeature) ∧
      ((loadLocationData
          [⟨.finite 1, .finite 2, "a"⟩, ⟨.finite 3, .finite 4, "a"⟩]
          []).filterMap featGeoId).Nodup ∧
      (getGeoData []
          [⟨.finite 1, .finite 2, "a"⟩, ⟨.finite 3, .finite 4, "a"⟩]).2.1 =
        (getGeoData []
          [⟨.finite 1, .finite 2, "a"⟩, ⟨.finite 3, .finite 4, "a"⟩]).1.length ∧
      (getGeoData []
            [⟨.finite 1, .finite 2, "a"⟩, ⟨.finite 3, .finite 4, "a"⟩]).2.1 +
          (getGeoData []
            [⟨.finite 1, .finite 2, "a"⟩, ⟨.finite 3, .finite 4, "a"⟩]).2.2 =
        ([⟨.finite 1, .finite 2, "a"⟩,
          ⟨.finite 3, .finite 4, "a"⟩] : List GeoRecord).length :=
  duplicate_id_first_wins
    [⟨.finite 1, .finite 2, "a"⟩, ⟨.finite 3, .finite 4, "a"⟩] []

/-- One emission invokes every registered listener's underlying handler
exactly once, in order. -/
theorem runEmit_log : ∀ ls : List BusEntry,
    (runEmit ls).2 = ls.map BusEntry.hid
  | [] => rfl
  | e :: rest => by
      cases e with
      | plain h => simp [runEmit, BusEntry.hid, runEmit_log rest]
      | onceWrapped h =>
          by_cases ht : h.throws = true
          · simp [runEmit, BusEntry.hid, ht, runEmit_log rest]
          · simp [runEmit, BusEntry.hid, ht, runEmit_log rest]

/-- Listeners surviving an emission were registered before it. -/
theorem runEmit_survivors_subset : ∀ (ls : List BusEntry) (e : BusEntry),
    e ∈ (runEmit ls).1 → e ∈ ls
  | [], _, h => by simp [runEmit] at h
  | x :: rest, e, h => by
      cases x with
      | plain g =>
          simp only [runEmit, List.mem_cons] at h
          rcases h with h | h
          · exact h ▸ List.mem_cons_self _ _
          · exact List.mem_cons_of_mem _ (runEmit_survivors_subset rest e h)
      | onceWrapped g =>
          by_cases ht : g.throws = true
          · simp only [runEmit, ht, if_true, List.mem_cons] at h
            rcases h with h | h
            · exact h ▸ List.mem_cons_self _ _
            · exact List.mem_cons_of_mem _ (runEmit_survivors_subset rest e h)
          · simp only [runEmit, ht, Bool.false_eq_true, if_false] at h
            exact List.mem_cons_of_mem _ (runEmit_survivors_subset rest e h)

/-- After an emission, no listener for a given handler identity remains
when every registered listener with that identity was a non-throwing
`once` wrapper. -/
theorem runEmit_once_removed : ∀ (ls : List BusEntry) (h : BusHandler),
    h.throws = false →
    (∀ e ∈ ls, BusEntry.hid e = h.hid → e = .onceWrapped h) →
    ((runEmit ls).1.countP (fun e => BusEntry.hid e = h.hid)) = 0
  | [], h, _, _ => rfl
  | x :: rest, h, hnothrow, honly => by
      have hrest := runEmit_once_removed rest h hnothrow
        (fun e he => honly e (List.mem_cons_of_mem _ he))
      by_cases hx : BusEntry.hid x = h.hid
      · have hxw : x = .onceWrapped h := honly x (List.mem_cons_self _ _) hx
        subst hxw
        simp only [runEmit, hnothrow, Bool.false_eq_true, if_false]
        exact hrest
      · cases x with
        | plain g =>
            simp only [runEmit, List.countP_cons]
            rw [hrest]
            simp only [BusEntry.hid] at hx ⊢
            simp [hx]
        | onceWrapped g =>
            by_cases ht : g.throws = true
            · simp only [runEmit, ht, if_true, List.countP_cons]
              rw [hrest]
              simp only [BusEntry.hid] at hx ⊢
              simp [hx]
            · simp only [runEmit, ht, Bool.false_eq_true, if_false]
              exact hrest

/-- The delivery count of one emission for an identity equals the number
of registered listeners with that identity. -/
theorem runEmit_count (ls : List BusEntry) (hid : ℕ) :
    ((runEmit ls).2.count hid) =
      ls.countP (fun e => BusEntry.hid e = hid) := by
  rw [runEmit_log ls]
  induction ls with
  | nil => rfl
  | cons x rest ih =>
      simp only [List.map_cons, List.count_cons, List.countP_cons, ih]
      by_cases hx : BusEntry.hid x = hid
      · simp [hx]
      · simp [hx]

/-- Emissions deliver nothing to an identity with no registered
listener. -/
theorem emitN_count_zero : ∀ (n : ℕ) (ls : List BusEntry) (hid : ℕ),
    ls.countP (fun e => BusEntry.hid e = hid) = 0 →
    ((emitN n ls).2.count hid) = 0
  | 0, _, _, _ => rfl
  | n + 1, ls, hid, h => by
      show ((runEmit ls).2 ++ (emitN n (runEmit ls).1).2).count hid = 0
      rw [List.count_append, runEmit_count ls hid, h]
      have hsurv : (runEmit ls).1.countP (fun e => BusEntry.hid e = hid) = 0 := by
        rw [List.countP_eq_zero]
        intro e he
        exact (List.countP_eq_zero.mp h) e (runEmit_survivors_subset ls e he)
      rw [emitN_count_zero n (runEmit ls).1 hid hsurv]

/-- C9 (amended): a handler registered through `once` whose body returns
normally is delivered at most once across any number of emissions — the
wrapper unsubscribes itself after the first delivery; this does not
extend to a handler that throws during delivery, which stays registered. -/
theorem once_delivers_at_most_once (n : ℕ) (bus : List BusEntry)
    (h : BusHandler) (hnothrow : h.throws = false)
    (hreg : bus.countP (fun e => BusEntry.hid e = h.hid) ≤ 1)
    (honly : ∀ e ∈ bus, BusEntry.hid e = h.hid → e = .onceWrapped h) :
    ((emitN n bus).2.count h.hid) ≤ 1 := by
  cases n with
  | zero => simp [emitN]
  | succ m =>
      show ((runEmit bus).2 ++ (emitN m (runEmit bus).1).2).count h.hid ≤ 1
      rw [List.count_append, runEmit_count bus h.hid,
        emitN_count_zero m (runEmit bus).1 h.hid
          (runEmit_once_removed bus h hnothrow honly)]
      simpa using hreg

/-- Witness for C9 (amended): one non-throwing `once` handler, emitted
twice, delivered once. -/
theorem once_delivers_at_most_once_witness :
    (⟨0, false⟩ : BusHandler).throws = false ∧
      (busOnce [] ⟨0, false⟩).countP
          (fun e => BusEntry.hid e = (0 : ℕ)) ≤ 1 ∧
      (∀ e ∈ busOnce [] ⟨0, false⟩, BusEntry.hid e = (0 : ℕ) →
        e = .onceWrapped ⟨0, false⟩) ∧
      ((emitN 2 (busOnce [] ⟨0, false⟩)).2.count 0) ≤ 1 :=
  ⟨rfl, by decide, by decide,
    once_delivers_at_most_once 2 (busOnce [] ⟨0, false⟩) ⟨0, false⟩ rfl
      (by decide) (by decide)⟩

/-- C9 (counterexample): a `once` handler that throws during delivery is
not unsubscribed — the thrown exception skips the wrapper's `off` call
and is swallowed by `emit`'s `try`/`catch` — so a second emission
delivers the event to it again: two deliveries in two emissions. -/
theorem once_throwing_redelivered :
    ¬ ((emitN 2 (busOnce [] ⟨0, true⟩)).2.count 0 ≤ 1) := by decide


/-- The haversine distance from the boundary center to the point 180°
of latitude away from it is half the Earth's great circle. -/
theorem calculateDistance_antipodal :
    calculateDistance (boundaryCenterLat + 180) boundaryCenterLon
        boundaryCenterLat boundaryCenterLon = 6371 * Real.pi := by
  unfold calculateDistance
  dsimp only
  have hdLat : toRad (boundaryCenterLat - (boundaryCenterLat + 180)) =
      -Real.pi := by
    unfold toRad
    ring
  have hdLon : toRad (boundaryCenterLon - boundaryCenterLon) = 0 := by
    unfold toRad
    ring
  rw [hdLat, hdLon]
  have hs1 : Real.sin ((-Real.pi) / 2) = -1 := by
    rw [neg_div, Real.sin_neg, Real.sin_pi_div_two]
  have hs0 : Real.sin ((0 : ℝ) / 2) = 0 := by
    rw [zero_div, Real.sin_zero]
  rw [hs1, hs0]
  have ha : (-1 : ℝ) * -1 +
      Real.cos (toRad (boundaryCenterLat + 180)) *
        Real.cos (toRad boundaryCenterLat) * 0 * 0 = 1 := by
    ring
  rw [ha]
  have h10 : (1 : ℝ) - 1 = 0 := by norm_num
  rw [h10, Real.sqrt_one, Real.sqrt_zero]
  have hatan : atan2 1 0 = Real.pi / 2 := by
    unfold atan2
    norm_num
  rw [hatan]
  ring

/-- The point 180° of latitude from the boundary center lies outside the
0.6 km boundary. -/
theorem antipodal_outside :
    ¬ IsWithinBoundary (boundaryCenterLon, boundaryCenterLat + 180) := by
  unfold IsWithinBoundary
  dsimp only
  rw [calculateDistance_antipodal]
  unfold boundaryRadius
  intro hle
  nlinarith [Real.pi_gt_three]

/-- C3: on a position update outside the boundary, the `_onSuccess`
override performs the boundary-exit behavior — cancelling tracking
(`_watchState = 'OFF'`) and showing the exit popup — if and only if the
geolocation request was user-initiated; an automatic update at the same
position only runs the control's original handler. -/
theorem onSuccess_boundary_exit (g : GeoMgrState) (p : ℝ × ℝ)
    (hout : ¬ IsWithinBoundary p) :
    ((GeoAction.showBoundaryPopup ∈ (onSuccessOverride g p).2 ∧
        GeoAction.setWatchStateOff ∈ (onSuccessOverride g p).2) ↔
      g.userInitiatedGeolocation = true) := by
  by_cases hu : g.userInitiatedGeolocation = true
  · rw [onSuccessOverride, if_pos ⟨hu, hout⟩]
    simp [hu]
  · rw [onSuccessOverride, if_neg (fun hand => hu hand.1)]
    simp [hu]

/-- Witness for C3: a user-initiated update at the antipodal point
triggers the exit popup and cancels tracking. -/
theorem onSuccess_boundary_exit_witness :
    ¬ IsWithinBoundary (boundaryCenterLon, boundaryCenterLat + 180) ∧
      ((GeoAction.showBoundaryPopup ∈
            (onSuccessOverride ⟨true, .activeLock⟩
              (boundaryCenterLon, boundaryCenterLat + 180)).2 ∧
          GeoAction.setWatchStateOff ∈
            (onSuccessOverride ⟨true, .activeLock⟩
              (boundaryCenterLon, boundaryCenterLat + 180)).2) ↔
        (⟨true, .activeLock⟩ : GeoMgrState).userInitiatedGeolocation = true) :=
  ⟨antipodal_outside,
    onSuccess_boundary_exit ⟨true, .activeLock⟩
      (boundaryCenterLon, boundaryCenterLat + 180) antipodal_outside⟩

end HeerlenDoen
